import Mathlib

/-!
Verification of the GCP → R2 migration pipeline (`gcp-r2-migration.ts`, full-diff
variant, and the presence-check variant in the second source file).

The embedding models the script's pure logic directly from the source:
object keys are `String`s, JS `key.split('/')` is `pathParts`, the scan over the
paginated source listing is a fold over the (flattened) list of `ObjectRecord`s,
the destination key accumulation is a fold over listing pages, and the per-task
download/retry/upload control flow is `processTask`.  Network/service behaviour
(listing results, download outcomes, upload outcomes) is supplied by explicit
oracle fields of an environment record, so every definition is executable.
-/

/-- One object returned by the source listing: key, creation instant
(`file.metadata.timeCreated`, modelled as an integer timestamp), and optional
content type (`file.metadata.contentType`). -/
structure ObjectRecord where
  key : String
  timeCreated : Int
  contentType : Option String
deriving DecidableEq

/-- Static script configuration: `GCP_INTERNAL_PATH` (root), `FOLDER_DATE_CHECK_FILE`
(markerFile) and `MINIMUM_DATE` (cutoff instant). -/
structure Config where
  root : String
  markerFile : String
  cutoff : Int
deriving DecidableEq

/-- JS `String.prototype.split` with a single-character separator, on the
character list of the string: `"".split(c) = [""]`, `"a/".split('/') = ["a",""]`,
separators are not kept. -/
def jsSplitChar (sep : Char) : List Char → List (List Char)
  | [] => [[]]
  | c :: cs =>
    let r := jsSplitChar sep cs
    if c = sep then [] :: r
    else
      match r with
      | [] => [[c]]
      | h :: t => (c :: h) :: t

/-- `file.name.split('/')` from the source. -/
def pathParts (s : String) : List String :=
  (jsSplitChar '/' s.data).map (fun cs => String.mk cs)

/-- `pathParts[pathParts.length - 2]` in JS: `undefined` (here `none`) when the
key has fewer than two path segments. -/
def folderNameOf (key : String) : Option String :=
  let parts := pathParts key
  if parts.length < 2 then none else parts[parts.length - 2]?

/-- `pathParts[pathParts.length - 1]` in JS: the last path segment (always
defined, since `split` never returns an empty array). -/
def fileNameOf (key : String) : String :=
  (pathParts key).getLastD ""

/-- JS `Set.prototype.add`: insertion-ordered, deduplicating. -/
def addSet {α : Type} [DecidableEq α] (l : List α) (a : α) : List α :=
  if a ∈ l then l else l ++ [a]

/-- State of the step-1 scan: `recentFoldersFound` (a JS `Set` that can hold
`undefined`, hence `Option String`) and `allFoldersFoundInTotal`. -/
structure ScanState where
  recent : List (Option String)
  allFolders : List String
deriving DecidableEq

/-- One iteration of the step-1 `for (const file of files)` loop: add the folder
name to the all-folders set when both `folderName` and `fileName` are truthy, and
add the (possibly undefined) `folderName` to the recent set when the leaf name is
the marker file and its creation instant is `>=` the cutoff. -/
def scanStep (cfg : Config) (st : ScanState) (r : ObjectRecord) : ScanState :=
  let folderName := folderNameOf r.key
  let fileName := fileNameOf r.key
  let newAll :=
    match folderName with
    | some f => if f ≠ "" ∧ fileName ≠ "" then addSet st.allFolders f else st.allFolders
    | none => st.allFolders
  let newRecent :=
    if fileName = cfg.markerFile ∧ cfg.cutoff ≤ r.timeCreated then
      addSet st.recent folderName
    else st.recent
  ⟨newRecent, newAll⟩

/-- The whole step-1 scan, folded over the flattened paginated source listing
(classification is per record, so page boundaries do not affect the result). -/
def scanFold (cfg : Config) (records : List ObjectRecord) : ScanState :=
  records.foldl (scanStep cfg) ⟨[], []⟩

/-- Accumulation of destination keys across `ListObjectsV2` pages: each page's
`Contents` items carry an optional `Key`; only truthy keys are added
(`if (item.Key) r2Files.add(item.Key)`). -/
def collectR2Keys (pages : List (List (Option String))) : List String :=
  pages.foldl
    (fun acc page =>
      page.foldl
        (fun acc it =>
          match it with
          | some k => if k ≠ "" then addSet acc k else acc
          | none => acc)
        acc)
    []

/-- Step 3 of the full-diff variant: keep the source objects whose key is not in
the destination key set (`gcpFiles.filter(file => !r2Files.has(file.name))`). -/
def filesToMigrate (gcpFiles : List ObjectRecord) (r2Files : List String) : List ObjectRecord :=
  gcpFiles.filter (fun f => decide (f.key ∉ r2Files))

/-- Outcome of one `file.download()` call: the promise either rejects (`throws`)
or resolves with a buffer that may be JS `null`/`undefined` (`returns none`).
Buffers are byte lists. -/
inductive DlAttempt where
  | throws : DlAttempt
  | returns : Option (List Nat) → DlAttempt
deriving DecidableEq

/-- One iteration of the retry loop body: a resolved, non-null buffer succeeds;
a rejection or a null/undefined buffer (`if (!fileBuffer) throw`) is caught. -/
def tryAttempt : DlAttempt → Option (List Nat)
  | .returns (some b) => some b
  | _ => none

/-- The `for (let i = 0; i < 3; i++)` download retry loop: the first successful
attempt's buffer, if any of the three calls succeeds. -/
def downloadWithRetry (att : Nat → DlAttempt) : Option (List Nat) :=
  match tryAttempt (att 0) with
  | some b => some b
  | none =>
    match tryAttempt (att 1) with
    | some b => some b
    | none => tryAttempt (att 2)

/-- Terminal state of one transfer task: how many `PutObjectCommand` calls were
issued for the object, the body passed to that call, whether the
skip-after-3-attempts log line ran, and whether the task's promise rejected
(which happens exactly when the un-guarded upload `await` throws). -/
structure TaskResult where
  uploadCalls : Nat
  uploadedBody : Option (List Nat)
  skipLogged : Bool
  failed : Bool
deriving DecidableEq

/-- The body of one worker-pool task: retry the download up to 3 times; on
exhaustion log the skip and return (the task resolves); otherwise upload
`bodyContent = fileBuffer.length > 0 ? fileBuffer : Buffer.from('')` — the task
rejects iff the upload throws. -/
def processTask (att : Nat → DlAttempt) (uploadOk : Bool) : TaskResult :=
  match downloadWithRetry att with
  | none => { uploadCalls := 0, uploadedBody := none, skipLogged := true, failed := false }
  | some buf =>
    let body := if buf.length > 0 then buf else []
    { uploadCalls := 1, uploadedBody := some body, skipLogged := false, failed := !uploadOk }

/-- The `p-limit` pool together with `await Promise.all(uploadPromises)`: every
submitted task runs to a terminal state (the limiter never cancels queued
tasks), and the collective await resolves iff no task rejected. -/
def runPool (tasks : List (String × (Nat → DlAttempt) × Bool)) :
    List (String × TaskResult) × Bool :=
  let results := tasks.map (fun t => (t.1, processTask t.2.1 t.2.2))
  (results, results.all (fun r => !r.2.failed))

/-- JS template-literal interpolation of a possibly-undefined folder name:
`` `${folderName}` `` stringifies `undefined` as `"undefined"`. -/
def jsName : Option String → String
  | some s => s
  | none => "undefined"

/-- The per-folder key path used by every step-2 operation:
`` `${GCP_INTERNAL_PATH}${folderName}/` ``. -/
def folderPath (root folder : String) : String := root ++ folder ++ "/"

/-- Object-store listing semantics: a key is under a path iff the path is a
prefix of the key (character-wise). -/
def isPre (p s : String) : Bool := p.data.isPrefixOf s.data

/-- Service-behaviour oracles plus the static world for one run of the full-diff
variant: the source bucket contents, the initial destination contents, and the
failure behaviour of each network operation. -/
structure Env where
  source : List ObjectRecord
  dest0 : List String
  scanFails : Bool
  destListFails : String → Bool
  srcListFails : String → Bool
  attempts : String → Nat → DlAttempt
  uploadOk : String → Bool

/-- Console-observable state of a run: current destination contents, folders
counted migrated, folders whose step-2 body started (in order), the per-folder
transfer-task counts, the keys for which an upload call was issued, and the keys
skip-logged after exhausted retries. -/
structure RunState where
  dest : List String
  migrated : Nat
  processed : List (Option String)
  folderTasks : List Nat
  uploads : List String
  skips : List String
deriving DecidableEq

/-- The source listing for one folder: `getFiles({ prefix })`. -/
def gcpFilesOf (env : Env) (pre : String) : List ObjectRecord :=
  env.source.filter (fun f => isPre pre f.key)

/-- The fully-paged destination listing for one folder, as a key set. -/
def r2FilesOf (dest : List String) (pre : String) : List String :=
  dest.filter (fun k => isPre pre k)

/-- The worker-pool inputs for a task list: each task carries its key, its
download-attempt behaviour and its upload outcome. -/
def taskSpecsOf (env : Env) (tasks : List ObjectRecord) :
    List (String × (Nat → DlAttempt) × Bool) :=
  tasks.map (fun f => (f.key, env.attempts f.key, env.uploadOk f.key))

/-- The step-2 body for one folder of the full-diff variant: list the
destination under the folder's path (a listing failure throws), list the source,
diff, and either mark the folder migrated (empty task list) or drive the worker
pool; the folder's collective await rejects iff some task rejected, and a
rejection is surfaced as `.error` (it propagates to the top-level catch). -/
def processFolderA (cfg : Config) (env : Env) (st : RunState) (folder : Option String) :
    Except RunState RunState :=
  let pre := folderPath cfg.root (jsName folder)
  let st1 := { st with processed := st.processed ++ [folder] }
  if env.destListFails pre then .error st1 else
  if env.srcListFails pre then .error st1 else
  let tasks := filesToMigrate (gcpFilesOf env pre) (r2FilesOf st1.dest pre)
  let st2 := { st1 with folderTasks := st1.folderTasks ++ [tasks.length] }
  if tasks.isEmpty then .ok { st2 with migrated := st2.migrated + 1 } else
  let pool := runPool (taskSpecsOf env tasks)
  let st3 := { st2 with
    uploads := st2.uploads ++
      pool.1.filterMap (fun r => if r.2.uploadCalls > 0 then some r.1 else none),
    skips := st2.skips ++
      pool.1.filterMap (fun r => if r.2.skipLogged then some r.1 else none),
    dest := st2.dest ++
      pool.1.filterMap (fun r => if r.2.uploadCalls > 0 && !r.2.failed then some r.1 else none) }
  if pool.2 then .ok { st3 with migrated := st3.migrated + 1 } else .error st3

/-- The `for (const folderName of finalFolders)` loop: folders are processed
strictly one at a time; the first folder whose body throws aborts the loop. -/
def runLoopA (cfg : Config) (env : Env) :
    List (Option String) → RunState → Except RunState RunState
  | [], st => .ok st
  | f :: rest, st =>
    match processFolderA cfg env st f with
    | .ok st1 => runLoopA cfg env rest st1
    | .error st1 => .error st1

/-- The run state before step 2 starts. -/
def initRunState (env : Env) : RunState := ⟨env.dest0, 0, [], [], [], []⟩

/-- `findAndProcessRecentFolders` of the full-diff variant: scan, then migrate
each recent folder; the whole body sits in one `try/catch`, so the function
always resolves, returning the console-observable state together with whether
the top-level catch ran (`errorLogged`). -/
def findAndProcessRecentFolders (cfg : Config) (env : Env) : RunState × Bool :=
  if env.scanFails then (initRunState env, true)
  else
    let folders := (scanFold cfg env.source).recent
    match runLoopA cfg env folders (initRunState env) with
    | .ok st => (st, false)
    | .error st => (st, true)

/-- Process-level outcome of the script. -/
inductive ProcessSignal where
  | successExit : ProcessSignal
  | failureExit : ProcessSignal
deriving DecidableEq

/-- The script's process-level outcome: the entry point fires
`findAndProcessRecentFolders()` and the `try/catch` swallows every error, so the
returned promise always resolves and the process terminates normally — there is
no `process.exit`, no re-throw, and no non-zero exit path. -/
def scriptExit (cfg : Config) (env : Env) : ProcessSignal :=
  let _ := findAndProcessRecentFolders cfg env
  ProcessSignal.successExit

/-- Environment of the presence-check (second source file) variant: the source
bucket and, for each folder path, the `Contents` array (possibly absent) that
the single `ListObjectsV2Command({ ..., MaxKeys: 1 })` call returns. -/
structure EnvB where
  source : List ObjectRecord
  destListMax1 : String → Option (List String)

/-- Step-2 outcome for one folder of the presence-check variant: the
destination-listing request issued (prefix and `MaxKeys`), whether the folder
was skipped wholesale, whether the source was listed, the transfer tasks (every
source object under the folder's path when not skipped), and whether the
migrated counter was incremented. -/
structure FolderOutcomeB where
  destRequest : String × Nat
  skipped : Bool
  sourceListed : Bool
  tasks : List ObjectRecord
  migratedInc : Bool
deriving DecidableEq

/-- The step-2 body for one folder of the presence-check variant: one
destination listing with `MaxKeys: 1`; if `Contents` exists and is non-empty the
folder is skipped (counted migrated, source never listed); otherwise every
source object under the folder's path becomes a transfer task.  The sequential
transfer itself is modelled as succeeding, which is all claim-relevant here. -/
def processFolderB (cfg : Config) (env : EnvB) (folder : Option String) : FolderOutcomeB :=
  let pre := folderPath cfg.root (jsName folder)
  let contents := env.destListMax1 pre
  if (contents.getD []).length > 0 then
    ⟨(pre, 1), true, false, [], true⟩
  else
    ⟨(pre, 1), false, true, env.source.filter (fun f => isPre pre f.key), true⟩

theorem mem_addSet {α : Type} [DecidableEq α] {l : List α} {a b : α} :
    a ∈ addSet l b ↔ a ∈ l ∨ a = b := by
  unfold addSet
  split
  · constructor
    · exact Or.inl
    · rintro (h | rfl) <;> assumption
  · simp [List.mem_append]

theorem mem_scanStep_recent {cfg : Config} {st : ScanState} {r : ObjectRecord}
    {fo : Option String} :
    fo ∈ (scanStep cfg st r).recent ↔
      fo ∈ st.recent ∨
        (fileNameOf r.key = cfg.markerFile ∧ cfg.cutoff ≤ r.timeCreated ∧
          folderNameOf r.key = fo) := by
  show fo ∈ (if fileNameOf r.key = cfg.markerFile ∧ cfg.cutoff ≤ r.timeCreated then
      addSet st.recent (folderNameOf r.key) else st.recent) ↔ _
  split
  · rw [mem_addSet]
    constructor
    · rintro (h | rfl)
      · exact Or.inl h
      · rename_i hc
        exact Or.inr ⟨hc.1, hc.2, rfl⟩
    · rintro (h | ⟨_, _, h⟩)
      · exact Or.inl h
      · exact Or.inr h.symm
  · rename_i hc
    constructor
    · exact Or.inl
    · rintro (h | ⟨h1, h2, _⟩)
      · exact h
      · exact absurd ⟨h1, h2⟩ hc

theorem mem_scanFoldl_recent (cfg : Config) (records : List ObjectRecord) :
    ∀ (st : ScanState) (fo : Option String),
      fo ∈ (records.foldl (scanStep cfg) st).recent ↔
        fo ∈ st.recent ∨
          ∃ r ∈ records,
            fileNameOf r.key = cfg.markerFile ∧ cfg.cutoff ≤ r.timeCreated ∧
              folderNameOf r.key = fo := by
  induction records with
  | nil => intro st fo; simp
  | cons r rs ih =>
    intro st fo
    rw [List.foldl_cons, ih, mem_scanStep_recent]
    constructor
    · rintro ((h | h) | ⟨r2, hr2, h⟩)
      · exact Or.inl h
      · exact Or.inr ⟨r, List.mem_cons_self r rs, h⟩
      · exact Or.inr ⟨r2, List.mem_cons_of_mem r hr2, h⟩
    · rintro (h | ⟨r2, hr2, h⟩)
      · exact Or.inl (Or.inl h)
      · rcases List.mem_cons.mp hr2 with rfl | hr2
        · exact Or.inl (Or.inr h)
        · exact Or.inr ⟨r2, hr2, h⟩

/-- Claim C2: for every finite stream of source object records, the scan's
recent-folder set contains exactly the (classifier-assigned, second-to-last
path segment) folder names of the objects whose leaf name equals the configured
marker filename and whose creation instant is `>=` the cutoff (inclusive
comparison); in particular a folder whose only marker object predates the
cutoff is excluded regardless of its other objects' timestamps. -/
theorem recent_folders_iff_marker_after_cutoff (cfg : Config)
    (records : List ObjectRecord) (fo : Option String) :
    fo ∈ (scanFold cfg records).recent ↔
      ∃ r ∈ records,
        fileNameOf r.key = cfg.markerFile ∧ cfg.cutoff ≤ r.timeCreated ∧
          folderNameOf r.key = fo := by
  rw [scanFold, mem_scanFoldl_recent]
  simp

/-- Configuration used for the C3 failing input (the marker filename is the
placeholder constant from the source; the cutoff is an arbitrary instant at or
before the record's creation time). -/
def cfgC3 : Config := ⟨"path/", "[FOLDER_DATE]", 0⟩

/-- Claim C3 (failing input evaluation): a source object whose whole key is the
marker filename (no `/`, so fewer than two path segments) makes the scan add JS
`undefined` (modelled `none`) to the recent-folder set, and a key whose
second-to-last segment is empty makes it add the empty string — so the
classifier's output is not restricted to non-empty folder names, contradicting
the claim; the all-folders set is guarded and stays empty, as the claim says. -/
theorem folderless_marker_pollutes_recent_set :
    (scanFold cfgC3 [⟨"[FOLDER_DATE]", 5, none⟩]).recent = [none] ∧
    (scanFold cfgC3 [⟨"[FOLDER_DATE]", 5, none⟩]).allFolders = [] ∧
    (scanFold cfgC3 [⟨"/[FOLDER_DATE]", 5, none⟩]).recent = [some ""] := by
  refine ⟨rfl, rfl, rfl⟩

theorem mem_collect_page (page : List (Option String)) :
    ∀ (acc : List String) (k : String),
      k ∈ page.foldl
          (fun acc it =>
            match it with
            | some k => if k ≠ "" then addSet acc k else acc
            | none => acc)
          acc ↔
        k ∈ acc ∨ (some k ∈ page ∧ k ≠ "") := by
  induction page with
  | nil => intro acc k; simp
  | cons it its ih =>
    intro acc k
    rw [List.foldl_cons, ih]
    have hstep :
        k ∈ (match it with
          | some k2 => if k2 ≠ "" then addSet acc k2 else acc
          | none => acc) ↔ k ∈ acc ∨ (it = some k ∧ k ≠ "") := by
      match it with
      | none => simp
      | some k2 =>
        simp only []
        split
        · rw [mem_addSet]
          constructor
          · rintro (h | rfl)
            · exact Or.inl h
            · rename_i hne
              exact Or.inr ⟨rfl, hne⟩
          · rintro (h | ⟨hk, _⟩)
            · exact Or.inl h
            · exact Or.inr (Option.some.inj hk).symm
        · rename_i hne
          constructor
          · exact Or.inl
          · rintro (h | ⟨hk, hne2⟩)
            · exact h
            · exact absurd ((Option.some.inj hk) ▸ hne2) (by simpa using hne)
    rw [hstep]
    constructor
    · rintro ((h | h) | ⟨h1, h2⟩)
      · exact Or.inl h
      · exact Or.inr ⟨h.1 ▸ List.mem_cons_self it its, h.2⟩
      · exact Or.inr ⟨List.mem_cons_of_mem it h1, h2⟩
    · rintro (h | ⟨h1, h2⟩)
      · exact Or.inl (Or.inl h)
      · rcases List.mem_cons.mp h1 with h1 | h1
        · exact Or.inl (Or.inr ⟨h1.symm, h2⟩)
        · exact Or.inr ⟨h1, h2⟩

theorem mem_collectR2Keys (pages : List (List (Option String))) (k : String) :
    k ∈ collectR2Keys pages ↔ (∃ page ∈ pages, some k ∈ page) ∧ k ≠ "" := by
  have haux : ∀ (acc : List String),
      k ∈ pages.foldl
          (fun acc page =>
            page.foldl
              (fun acc it =>
                match it with
                | some k => if k ≠ "" then addSet acc k else acc
                | none => acc)
              acc)
          acc ↔
        k ∈ acc ∨ ((∃ page ∈ pages, some k ∈ page) ∧ k ≠ "") := by
    induction pages with
    | nil => intro acc; simp
    | cons page ps ih =>
      intro acc
      rw [List.foldl_cons, ih, mem_collect_page]
      constructor
      · rintro ((h | ⟨h1, h2⟩) | ⟨⟨p, hp, hk⟩, h2⟩)
        · exact Or.inl h
        · exact Or.inr ⟨⟨page, List.mem_cons_self page ps, h1⟩, h2⟩
        · exact Or.inr ⟨⟨p, List.mem_cons_of_mem page hp, hk⟩, h2⟩
      · rintro (h | ⟨⟨p, hp, hk⟩, h2⟩)
        · exact Or.inl (Or.inl h)
        · rcases List.mem_cons.mp hp with rfl | hp
          · exact Or.inl (Or.inr ⟨hk, h2⟩)
          · exact Or.inr ⟨⟨p, hp, hk⟩, h2⟩
  rw [collectR2Keys, haux]
  simp

/-- Claim C1: with `D` the set of destination keys accumulated by paging through
the destination listing under the folder's path (every truthy `Key` of every
page's `Contents`), the full-diff task list contains exactly the source objects
whose key is not in `D` — the set difference `S − D` on full key strings. -/
theorem fullDiff_tasks_eq_sdiff (pages : List (List (Option String)))
    (gcpFiles : List ObjectRecord) :
    (∀ k, k ∈ collectR2Keys pages ↔ (∃ page ∈ pages, some k ∈ page) ∧ k ≠ "") ∧
    ∀ f, f ∈ filesToMigrate gcpFiles (collectR2Keys pages) ↔
        f ∈ gcpFiles ∧ f.key ∉ collectR2Keys pages := by
  refine ⟨fun k => mem_collectR2Keys pages k, fun f => ?_⟩
  rw [filesToMigrate, List.mem_filter]
  simp

/-- Claim C4: a task whose download throws on the first two attempts and
resolves with a buffer on the third issues exactly one upload call and no
skip-log entry; a task all three of whose attempts fail issues zero upload
calls and exactly one skip-log entry, its promise still resolves, and in the
worker pool it leaves every other task's terminal result — and the folder's
collective await — unaffected. -/
theorem download_retry_and_skip_semantics (att : Nat → DlAttempt) (b : List Nat)
    (u : Bool) (k : String) (before after : List (String × (Nat → DlAttempt) × Bool)) :
    (att 0 = DlAttempt.throws → att 1 = DlAttempt.throws →
      att 2 = DlAttempt.returns (some b) →
        (processTask att u).uploadCalls = 1 ∧ (processTask att u).skipLogged = false) ∧
    (tryAttempt (att 0) = none → tryAttempt (att 1) = none → tryAttempt (att 2) = none →
      processTask att u =
          { uploadCalls := 0, uploadedBody := none, skipLogged := true, failed := false } ∧
        (runPool (before ++ (k, att, u) :: after)).1 =
          (runPool before).1 ++ (k, processTask att u) :: (runPool after).1 ∧
        (runPool (before ++ (k, att, u) :: after)).2 =
          ((runPool before).2 && (runPool after).2)) := by
  constructor
  · intro h0 h1 h2
    have hd : downloadWithRetry att = some b := by
      rw [downloadWithRetry, h0, h1, h2]
      rfl
    rw [processTask, hd]
    exact ⟨rfl, rfl⟩
  · intro h0 h1 h2
    have hd : downloadWithRetry att = none := by
      rw [downloadWithRetry, h0, h1, h2]
    have hp : processTask att u =
        { uploadCalls := 0, uploadedBody := none, skipLogged := true, failed := false } := by
      rw [processTask, hd]
    refine ⟨hp, ?_, ?_⟩
    · simp [runPool]
    · simp [runPool, hp, Bool.and_assoc, Bool.and_comm]

/-- Download behaviour that throws twice and then resolves with `[2]`. -/
def attC4a : Nat → DlAttempt := fun i =>
  match i with
  | 0 => DlAttempt.throws
  | 1 => DlAttempt.throws
  | _ => DlAttempt.returns (some [2])

/-- Download behaviour that throws on every attempt. -/
def attC4b : Nat → DlAttempt := fun _ => DlAttempt.throws

theorem download_retry_and_skip_semantics_witness :
    ((processTask attC4a true).uploadCalls = 1 ∧ (processTask attC4a true).skipLogged = false) ∧
    (processTask attC4b true =
        { uploadCalls := 0, uploadedBody := none, skipLogged := true, failed := false } ∧
      (runPool ([("a", attC4a, true)] ++ ("k", attC4b, true) :: [("b", attC4a, true)])).1 =
        (runPool [("a", attC4a, true)]).1 ++
          ("k", processTask attC4b true) :: (runPool [("b", attC4a, true)]).1 ∧
      (runPool ([("a", attC4a, true)] ++ ("k", attC4b, true) :: [("b", attC4a, true)])).2 =
        ((runPool [("a", attC4a, true)]).2 && (runPool [("b", attC4a, true)]).2)) :=
  ⟨(download_retry_and_skip_semantics attC4a [2] true "k" [] []).1 rfl rfl rfl,
   (download_retry_and_skip_semantics attC4b [] true "k"
      [("a", attC4a, true)] [("b", attC4a, true)]).2 rfl rfl rfl⟩

/-- Download behaviour that always resolves with an empty (zero-length) buffer. -/
def attEmptyBuf : Nat → DlAttempt := fun _ => DlAttempt.returns (some [])

/-- Download behaviour that always resolves with a JS null/undefined buffer. -/
def attNullBuf : Nat → DlAttempt := fun _ => DlAttempt.returns none

/-- Claim C5 counterexample: the claim predicts that a download resolving with
an empty buffer consumes a retry attempt and, when every attempt yields such a
buffer, the object is skipped with zero upload calls.  In the code an empty
`Buffer` is truthy, so `if (!fileBuffer)` does not throw: with every attempt
returning an empty buffer the first attempt already succeeds, exactly one
upload call is issued (with an empty body), and no skip is logged. -/
theorem empty_buffer_upload_counterexample :
    (processTask attEmptyBuf true).uploadCalls = 1 ∧
    (processTask attEmptyBuf true).skipLogged = false ∧
    (processTask attEmptyBuf true).uploadedBody = some [] :=
  ⟨rfl, rfl, rfl⟩

/-- Claim C5 as amended: a download resolving with a null/undefined buffer is
treated identically to a thrown transport error — it consumes one of the 3
attempts, and three such results skip the object with no upload call; but a
download resolving with an *empty* buffer counts as a success: the object is
uploaded once, with an empty body, and nothing is skipped. -/
theorem null_buffer_retry_empty_buffer_success (att : Nat → DlAttempt) (u : Bool) :
    tryAttempt (DlAttempt.returns none) = tryAttempt DlAttempt.throws ∧
    (att 0 = DlAttempt.returns none → att 1 = DlAttempt.returns none →
      att 2 = DlAttempt.returns none →
        (processTask att u).uploadCalls = 0 ∧ (processTask att u).skipLogged = true) ∧
    (att 0 = DlAttempt.returns (some []) →
      (processTask att u).uploadCalls = 1 ∧ (processTask att u).uploadedBody = some [] ∧
        (processTask att u).skipLogged = false) := by
  refine ⟨rfl, ?_, ?_⟩
  · intro h0 h1 h2
    have hd : downloadWithRetry att = none := by
      rw [downloadWithRetry, h0, h1, h2]
      rfl
    rw [processTask, hd]
    exact ⟨rfl, rfl⟩
  · intro h0
    have hd : downloadWithRetry att = some [] := by
      rw [downloadWithRetry, h0]
      rfl
    rw [processTask, hd]
    exact ⟨rfl, rfl, rfl⟩

theorem null_buffer_retry_empty_buffer_success_witness :
    ((processTask attNullBuf true).uploadCalls = 0 ∧
      (processTask attNullBuf true).skipLogged = true) ∧
    ((processTask attEmptyBuf false).uploadCalls = 1 ∧
      (processTask attEmptyBuf false).uploadedBody = some [] ∧
      (processTask attEmptyBuf false).skipLogged = false) :=
  ⟨(null_buffer_retry_empty_buffer_success attNullBuf true).2.1 rfl rfl rfl,
   (null_buffer_retry_empty_buffer_success attEmptyBuf false).2.2 rfl⟩

theorem runLoopA_error_of_first {cfg : Config} {env : Env} {folder : Option String}
    {rest : List (Option String)} {st s : RunState}
    (h : processFolderA cfg env st folder = .error s) :
    runLoopA cfg env (folder :: rest) st = .error s := by
  simp [runLoopA, h]

theorem runPool_uploadCalls_le_one (specs : List (String × (Nat → DlAttempt) × Bool)) :
    ∀ r ∈ (runPool specs).1, r.2.uploadCalls ≤ 1 := by
  intro r hr
  rw [runPool] at hr
  simp only [List.mem_map] at hr
  obtain ⟨t, _, rfl⟩ := hr
  rw [processTask]
  cases downloadWithRetry t.2.1 <;> simp

/-- Configuration for the C6 counterexample run (root `r/`, marker `m`,
cutoff 0). -/
def cfgC6 : Config := ⟨"r/", "m", 0⟩

/-- Environment for the C6 counterexample: two recent folders `f1`, `f2`;
downloads always succeed; every upload fails. -/
def envC6 : Env :=
  { source := [⟨"r/f1/m", 1, none⟩, ⟨"r/f2/m", 1, none⟩]
    dest0 := []
    scanFails := false
    destListFails := fun _ => false
    srcListFails := fun _ => false
    attempts := fun _ _ => DlAttempt.returns (some [1])
    uploadOk := fun _ => false }

/-- Claim C6 counterexample: the scan finds the two recent folders `f1` and
`f2`; the single task of `f1` is uploaded once and the upload fails, and the run
ends there — the top-level catch runs (`true`) and `f2` is never processed,
contradicting the claim that an upload failure aborts neither the folder loop
nor the remaining folders of the run. -/
theorem upload_failure_aborts_run_counterexample :
    (scanFold cfgC6 envC6.source).recent = [some "f1", some "f2"] ∧
    findAndProcessRecentFolders cfgC6 envC6 =
      ({ dest := [], migrated := 0, processed := [some "f1"], folderTasks := [1],
         uploads := ["r/f1/m"], skips := [] }, true) := by
  exact ⟨rfl, rfl⟩

/-- Claim C6 as amended: an upload failure is indeed not retried (no task ever
issues more than one upload call) and the folder's other tasks still reach
their terminal states, but the failure is not isolated: the rejected task makes
the folder's `Promise.all` reject, the rejection reaches the top-level catch,
and the remaining folders of the run are never processed. -/
theorem upload_failure_not_isolated (cfg : Config) (env : Env) (st : RunState)
    (folder : Option String) (rest : List (Option String))
    (hdl : env.destListFails (folderPath cfg.root (jsName folder)) = false)
    (hsl : env.srcListFails (folderPath cfg.root (jsName folder)) = false)
    (hfail : (runPool (taskSpecsOf env (filesToMigrate
        (gcpFilesOf env (folderPath cfg.root (jsName folder)))
        (r2FilesOf st.dest (folderPath cfg.root (jsName folder)))))).2 = false) :
    (∀ specs, ∀ r ∈ (runPool specs).1, r.2.uploadCalls ≤ 1) ∧
    ∃ s, processFolderA cfg env st folder = .error s ∧
      runLoopA cfg env (folder :: rest) st = .error s := by
  refine ⟨fun specs => runPool_uploadCalls_le_one specs, ?_⟩
  have hne : (filesToMigrate
      (gcpFilesOf env (folderPath cfg.root (jsName folder)))
      (r2FilesOf st.dest (folderPath cfg.root (jsName folder)))).isEmpty = false := by
    cases he : (filesToMigrate
        (gcpFilesOf env (folderPath cfg.root (jsName folder)))
        (r2FilesOf st.dest (folderPath cfg.root (jsName folder)))).isEmpty
    · rfl
    · exfalso
      rw [List.isEmpty_iff] at he
      rw [he] at hfail
      simp [runPool, taskSpecsOf] at hfail
  cases hP : processFolderA cfg env st folder with
  | error s => exact ⟨s, rfl, runLoopA_error_of_first hP⟩
  | ok s =>
    exfalso
    simp [processFolderA, hdl, hsl, hne, hfail] at hP

/-- Environment used in the C6 witness: one recent folder `g1` whose single
task's upload fails, with folder `g2` still pending. -/
def envC6w : Env :=
  { source := [⟨"q/g1/mm", 2, none⟩]
    dest0 := []
    scanFails := false
    destListFails := fun _ => false
    srcListFails := fun _ => false
    attempts := fun _ _ => DlAttempt.returns (some [3])
    uploadOk := fun _ => false }

/-- Configuration paired with `envC6w`. -/
def cfgC6w : Config := ⟨"q/", "mm", 0⟩

theorem upload_failure_not_isolated_witness :
    (∀ specs, ∀ r ∈ (runPool specs).1, r.2.uploadCalls ≤ 1) ∧
    ∃ s, processFolderA cfgC6w envC6w (initRunState envC6w) (some "g1") = .error s ∧
      runLoopA cfgC6w envC6w (some "g1" :: [some "g2"]) (initRunState envC6w) = .error s :=
  upload_failure_not_isolated cfgC6w envC6w (initRunState envC6w) (some "g1") [some "g2"]
    rfl rfl (by decide)

/-- Configuration for the C7 runs. -/
def cfgC7 : Config := ⟨"r/", "m", 0⟩

/-- Environment whose step-1 source listing throws (fatal `ListError`). -/
def envC7fail : Env :=
  { source := []
    dest0 := []
    scanFails := true
    destListFails := fun _ => false
    srcListFails := fun _ => false
    attempts := fun _ _ => DlAttempt.returns (some [1])
    uploadOk := fun _ => true }

/-- The same environment with a healthy (empty) source listing. -/
def envC7ok : Env :=
  { source := []
    dest0 := []
    scanFails := false
    destListFails := fun _ => false
    srcListFails := fun _ => false
    attempts := fun _ _ => DlAttempt.returns (some [1])
    uploadOk := fun _ => true }

/-- Claim C7 counterexample: when the listing throws, the error is caught and
logged (`true` in the second component), but the function still resolves with a
normal value and the script's process-level outcome is `successExit` — the very
same signal as a fully successful run, so there is no non-zero-equivalent
failure signal distinguishing the two, contradicting the claim that the overall
run result is an error. -/
theorem fatal_error_exits_success_counterexample :
    findAndProcessRecentFolders cfgC7 envC7fail = (initRunState envC7fail, true) ∧
    scriptExit cfgC7 envC7fail = ProcessSignal.successExit ∧
    findAndProcessRecentFolders cfgC7 envC7ok = (initRunState envC7ok, false) ∧
    scriptExit cfgC7 envC7ok = ProcessSignal.successExit :=
  ⟨rfl, rfl, rfl, rfl⟩

/-- Claim C7 as amended: a fatal listing error is caught exactly once at the top
level and logged, after which the function completes normally with the run
state it had accumulated; the process then terminates with a success-equivalent
signal — the logged error line, not the exit status, is the only thing
distinguishing the run from a successful one. -/
theorem fatal_error_caught_logged_normal_exit (cfg : Config) (env : Env) :
    (env.scanFails = true →
      findAndProcessRecentFolders cfg env = (initRunState env, true)) ∧
    scriptExit cfg env = ProcessSignal.successExit := by
  constructor
  · intro h
    simp [findAndProcessRecentFolders, h]
  · rfl

theorem fatal_error_caught_logged_normal_exit_witness :
    findAndProcessRecentFolders cfgC7 envC7fail = (initRunState envC7fail, true) ∧
    scriptExit cfgC7 envC7fail = ProcessSignal.successExit :=
  ⟨(fatal_error_caught_logged_normal_exit cfgC7 envC7fail).1 rfl,
   (fatal_error_caught_logged_normal_exit cfgC7 envC7fail).2⟩

/-- Claim C9: in the presence-check variant, every folder's destination listing
request carries `MaxKeys: 1`; when the response holds at least one key the
folder is skipped wholesale — no source listing, no transfer tasks, counted
migrated — and when it holds no key, every source object under the folder's
path becomes a transfer task. -/
theorem presence_check_folder_semantics (cfg : Config) (env : EnvB)
    (folder : Option String) :
    (processFolderB cfg env folder).destRequest =
      (folderPath cfg.root (jsName folder), 1) ∧
    (∀ l, env.destListMax1 (folderPath cfg.root (jsName folder)) = some l →
      0 < l.length →
        processFolderB cfg env folder =
          ⟨(folderPath cfg.root (jsName folder), 1), true, false, [], true⟩) ∧
    (((env.destListMax1 (folderPath cfg.root (jsName folder))).getD []).length = 0 →
      processFolderB cfg env folder =
        ⟨(folderPath cfg.root (jsName folder), 1), false, true,
          env.source.filter (fun f => isPre (folderPath cfg.root (jsName folder)) f.key),
          true⟩) := by
  refine ⟨?_, ?_, ?_⟩
  · rw [processFolderB]
    split <;> rfl
  · intro l hl hlen
    simp [processFolderB, hl, hlen]
  · intro h0
    simp [processFolderB, h0]

/-- Presence-check environment whose destination listing always reports one
existing key. -/
def envB1 : EnvB := ⟨[⟨"r/f3/x", 0, none⟩], fun _ => some ["r/f3/old"]⟩

/-- Presence-check environment whose destination listing reports no `Contents`. -/
def envB2 : EnvB := ⟨[⟨"r/f3/x", 0, none⟩, ⟨"r/zz", 0, none⟩], fun _ => none⟩

theorem presence_check_folder_semantics_witness :
    processFolderB cfgC7 envB1 (some "f3") =
      ⟨("r/f3/", 1), true, false, [], true⟩ ∧
    processFolderB cfgC7 envB2 (some "f3") =
      ⟨("r/f3/", 1), false, true, [⟨"r/f3/x", 0, none⟩], true⟩ := by
  constructor
  · have h := (presence_check_folder_semantics cfgC7 envB1 (some "f3")).2.1
      ["r/f3/old"] rfl (by decide)
    exact h
  · have h := (presence_check_folder_semantics cfgC7 envB2 (some "f3")).2.2 rfl
    rw [h]
    rfl

/-- Records for the C10 witness. -/
def recsC10 : List ObjectRecord := [⟨"x/y/f9/mm", 3, none⟩]

/-- Configuration for the C10 witness. -/
def cfgC10 : Config := ⟨"rt/", "mm", 0⟩

/-- Claim C10: folder identity collapses to the bare second-to-last path
segment — two keys with equal second-to-last segments get the same FolderName
whatever their earlier segments are; every name in the recent-folder set is the
bare segment of some scanned marker record; every later per-folder operation
rebuilds the folder path as `root ++ folderName ++ "/"`; consequently a marker
nested deeper than directly under the root (here `r/deep/f1/mk`) selects a
transfer path (`r/f1/`) that differs from the marker's actual parent path
(`r/deep/f1/`) and is not even a prefix of the marker's own key. -/
theorem folder_identity_second_to_last_segment (cfg : Config)
    (records : List ObjectRecord) :
    (∀ k1 k2 : String, 2 ≤ (pathParts k1).length → 2 ≤ (pathParts k2).length →
      (pathParts k1)[(pathParts k1).length - 2]? =
        (pathParts k2)[(pathParts k2).length - 2]? →
      folderNameOf k1 = folderNameOf k2) ∧
    (∀ f : String, some f ∈ (scanFold cfg records).recent →
      ∃ r ∈ records, folderNameOf r.key = some f ∧ fileNameOf r.key = cfg.markerFile) ∧
    (∀ root f, folderPath root f = root ++ f ++ "/") ∧
    (folderNameOf "r/deep/f1/mk" = some "f1" ∧ folderPath "r/" "f1" = "r/f1/" ∧
      "r/f1/" ≠ "r/deep/f1/" ∧ isPre (folderPath "r/" "f1") "r/deep/f1/mk" = false) := by
  refine ⟨?_, ?_, fun root f => rfl, by decide⟩
  · intro k1 k2 h1 h2 heq
    rw [folderNameOf, folderNameOf]
    rw [if_neg (by omega), if_neg (by omega)]
    exact heq
  · intro f hf
    rw [scanFold, mem_scanFoldl_recent] at hf
    simp at hf
    obtain ⟨r, hr, hmk, _, hfo⟩ := hf
    exact ⟨r, hr, hfo, hmk⟩

theorem folder_identity_second_to_last_segment_witness :
    folderNameOf "a/b/c" = folderNameOf "z/q/b/c" ∧
    ∃ r ∈ recsC10, folderNameOf r.key = some "f9" ∧ fileNameOf r.key = "mm" :=
  ⟨(folder_identity_second_to_last_segment cfgC10 recsC10).1 "a/b/c" "z/q/b/c"
      (by decide) (by decide) (by decide),
   (folder_identity_second_to_last_segment cfgC10 recsC10).2.1 "f9" (by decide)⟩

theorem processTask_success_fields (att : Nat → DlAttempt)
    (hdown : (downloadWithRetry att).isSome = true) :
    (processTask att true).uploadCalls = 1 ∧ (processTask att true).failed = false := by
  cases hb : downloadWithRetry att with
  | none => rw [hb] at hdown; simp at hdown
  | some b =>
    rw [processTask, hb]
    exact ⟨rfl, rfl⟩

theorem pool_success_facts (env : Env)
    (hdown : ∀ k, (downloadWithRetry (env.attempts k)).isSome = true)
    (hup : ∀ k, env.uploadOk k = true) (tasks : List ObjectRecord) :
    (runPool (taskSpecsOf env tasks)).2 = true ∧
    (runPool (taskSpecsOf env tasks)).1.filterMap
        (fun r => if r.2.uploadCalls > 0 && !r.2.failed then some r.1 else none) =
      tasks.map (fun f => f.key) := by
  induction tasks with
  | nil => exact ⟨rfl, rfl⟩
  | cons f ts ih =>
    obtain ⟨h1, h2⟩ := processTask_success_fields (env.attempts f.key) (hdown f.key)
    obtain ⟨iha, ihb⟩ := ih
    simp only [runPool, taskSpecsOf, List.map_cons, List.all_cons, List.filterMap_cons]
      at iha ihb ⊢
    rw [hup f.key]
    constructor
    · simp only [h2, Bool.not_false, Bool.true_and]
      exact iha
    · simp only [h1, h2, Bool.not_false, Bool.and_true]
      simp only [gt_iff_lt, Nat.zero_lt_one, decide_True, if_true]
      rw [ihb]

theorem processFolderA_success (cfg : Config) (env : Env) (st : RunState)
    (folder : Option String)
    (hdl : ∀ p, env.destListFails p = false)
    (hsl : ∀ p, env.srcListFails p = false)
    (hdown : ∀ k, (downloadWithRetry (env.attempts k)).isSome = true)
    (hup : ∀ k, env.uploadOk k = true) :
    ∃ st1, processFolderA cfg env st folder = .ok st1 ∧
      st1.dest = st.dest ++
        (filesToMigrate (gcpFilesOf env (folderPath cfg.root (jsName folder)))
          (r2FilesOf st.dest (folderPath cfg.root (jsName folder)))).map
          (fun f => f.key) := by
  cases hemp : (filesToMigrate (gcpFilesOf env (folderPath cfg.root (jsName folder)))
      (r2FilesOf st.dest (folderPath cfg.root (jsName folder)))).isEmpty with
  | true =>
    have hnil := List.isEmpty_iff.mp hemp
    refine ⟨{ st with
        processed := st.processed ++ [folder],
        folderTasks := st.folderTasks ++
          [(filesToMigrate (gcpFilesOf env (folderPath cfg.root (jsName folder)))
            (r2FilesOf st.dest (folderPath cfg.root (jsName folder)))).length],
        migrated := st.migrated + 1 }, ?_, ?_⟩
    · simp [processFolderA, hdl, hsl, hemp]
    · rw [hnil]
      simp
  | false =>
    obtain ⟨hflag, hmap⟩ := pool_success_facts env hdown hup
      (filesToMigrate (gcpFilesOf env (folderPath cfg.root (jsName folder)))
        (r2FilesOf st.dest (folderPath cfg.root (jsName folder))))
    refine ⟨{ st with
        processed := st.processed ++ [folder],
        folderTasks := st.folderTasks ++
          [(filesToMigrate (gcpFilesOf env (folderPath cfg.root (jsName folder)))
            (r2FilesOf st.dest (folderPath cfg.root (jsName folder)))).length],
        uploads := st.uploads ++
          (runPool (taskSpecsOf env
            (filesToMigrate (gcpFilesOf env (folderPath cfg.root (jsName folder)))
              (r2FilesOf st.dest (folderPath cfg.root (jsName folder)))))).1.filterMap
            (fun r => if r.2.uploadCalls > 0 then some r.1 else none),
        skips := st.skips ++
          (runPool (taskSpecsOf env
            (filesToMigrate (gcpFilesOf env (folderPath cfg.root (jsName folder)))
              (r2FilesOf st.dest (folderPath cfg.root (jsName folder)))))).1.filterMap
            (fun r => if r.2.skipLogged then some r.1 else none),
        dest := st.dest ++
          (filesToMigrate (gcpFilesOf env (folderPath cfg.root (jsName folder)))
            (r2FilesOf st.dest (folderPath cfg.root (jsName folder)))).map
            (fun f => f.key),
        migrated := st.migrated + 1 }, ?_, rfl⟩
    simp [processFolderA, hdl, hsl, hemp, hflag]
    simpa using hmap

theorem runLoopA_success (cfg : Config) (env : Env)
    (hdl : ∀ p, env.destListFails p = false)
    (hsl : ∀ p, env.srcListFails p = false)
    (hdown : ∀ k, (downloadWithRetry (env.attempts k)).isSome = true)
    (hup : ∀ k, env.uploadOk k = true) :
    ∀ (folders : List (Option String)) (st : RunState),
      ∃ st1, runLoopA cfg env folders st = .ok st1 ∧
        (∀ k, k ∈ st.dest → k ∈ st1.dest) ∧
        (∀ fo ∈ folders, ∀ f ∈ gcpFilesOf env (folderPath cfg.root (jsName fo)),
          f.key ∈ st1.dest) := by
  intro folders
  induction folders with
  | nil => intro st; exact ⟨st, rfl, fun k h => h, by simp⟩
  | cons fo fos ih =>
    intro st
    obtain ⟨s1, h1, hdest⟩ := processFolderA_success cfg env st fo hdl hsl hdown hup
    have hmono1 : ∀ k, k ∈ st.dest → k ∈ s1.dest := by
      intro k hk
      rw [hdest]
      exact List.mem_append_left _ hk
    have hcov1 : ∀ f ∈ gcpFilesOf env (folderPath cfg.root (jsName fo)),
        f.key ∈ s1.dest := by
      intro f hf
      rw [hdest]
      by_cases hr : f.key ∈ r2FilesOf st.dest (folderPath cfg.root (jsName fo))
      · exact List.mem_append_left _ (List.mem_of_mem_filter hr)
      · apply List.mem_append_right
        rw [List.mem_map]
        refine ⟨f, ?_, rfl⟩
        rw [filesToMigrate, List.mem_filter]
        exact ⟨hf, by simpa using hr⟩
    obtain ⟨s2, h2, hmono2, hcov2⟩ := ih s1
    refine ⟨s2, ?_, fun k hk => hmono2 k (hmono1 k hk), ?_⟩
    · simp [runLoopA, h1, h2]
    · intro fo2 hfo2 f hf
      rcases List.mem_cons.mp hfo2 with heq | hfo2
      · subst heq
        exact hmono2 _ (hcov1 f hf)
      · exact hcov2 fo2 hfo2 f hf

theorem processFolderA_synced (cfg : Config) (env : Env) (st : RunState)
    (folder : Option String)
    (hdl : ∀ p, env.destListFails p = false)
    (hsl : ∀ p, env.srcListFails p = false)
    (hcov : ∀ f ∈ gcpFilesOf env (folderPath cfg.root (jsName folder)),
      f.key ∈ st.dest) :
    processFolderA cfg env st folder = .ok
      { st with processed := st.processed ++ [folder],
                folderTasks := st.folderTasks ++ [0],
                migrated := st.migrated + 1 } := by
  have htasks : filesToMigrate (gcpFilesOf env (folderPath cfg.root (jsName folder)))
      (r2FilesOf st.dest (folderPath cfg.root (jsName folder))) = [] := by
    rw [filesToMigrate]
    apply List.filter_eq_nil_iff.mpr
    intro f hf
    simp only [decide_eq_true_eq, Decidable.not_not]
    rw [r2FilesOf, List.mem_filter]
    refine ⟨hcov f hf, ?_⟩
    rw [gcpFilesOf, List.mem_filter] at hf
    exact hf.2
  simp [processFolderA, hdl, hsl, htasks]

theorem runLoopA_synced (cfg : Config) (env : Env)
    (hdl : ∀ p, env.destListFails p = false)
    (hsl : ∀ p, env.srcListFails p = false) :
    ∀ (folders : List (Option String)) (st : RunState),
      (∀ fo ∈ folders, ∀ f ∈ gcpFilesOf env (folderPath cfg.root (jsName fo)),
        f.key ∈ st.dest) →
      runLoopA cfg env folders st = .ok
        { st with migrated := st.migrated + folders.length,
                  processed := st.processed ++ folders,
                  folderTasks := st.folderTasks ++ List.replicate folders.length 0 } := by
  intro folders
  induction folders with
  | nil =>
    intro st hcov
    simp [runLoopA]
  | cons fo fos ih =>
    intro st hcov
    have h1 := processFolderA_synced cfg env st fo hdl hsl
      (hcov fo (List.mem_cons_self fo fos))
    have h2 := ih { st with processed := st.processed ++ [fo],
                            folderTasks := st.folderTasks ++ [0],
                            migrated := st.migrated + 1 }
      (by
        intro fo2 hfo2 f hf
        exact hcov fo2 (List.mem_cons_of_mem fo hfo2) f hf)
    simp only [runLoopA, h1]
    rw [h2]
    simp [List.append_assoc, List.replicate_succ, RunState.mk.injEq]
    omega

/-- Claim C8: if the full-diff pipeline is run once and every task completes
successfully (listings never fail, every download eventually resolves, every
upload succeeds), then running the entire pipeline again over the unchanged
source — with the destination as the first run left it — produces zero transfer
tasks for every folder: every folder is marked migrated (`migrated` equals the
number of recent folders, `folderTasks` is all zeros), no upload call is issued
and nothing is skipped, and the run finishes without error. -/
theorem rerun_after_success_yields_no_tasks (cfg : Config) (env : Env)
    (hscan : env.scanFails = false)
    (hdl : ∀ p, env.destListFails p = false)
    (hsl : ∀ p, env.srcListFails p = false)
    (hdown : ∀ k, (downloadWithRetry (env.attempts k)).isSome = true)
    (hup : ∀ k, env.uploadOk k = true) :
    (findAndProcessRecentFolders cfg env).2 = false ∧
    findAndProcessRecentFolders cfg
        { env with dest0 := (findAndProcessRecentFolders cfg env).1.dest } =
      ({ dest := (findAndProcessRecentFolders cfg env).1.dest,
         migrated := (scanFold cfg env.source).recent.length,
         processed := (scanFold cfg env.source).recent,
         folderTasks := List.replicate (scanFold cfg env.source).recent.length 0,
         uploads := [], skips := [] }, false) := by
  obtain ⟨st1, h1, hmono, hcov⟩ :=
    runLoopA_success cfg env hdl hsl hdown hup (scanFold cfg env.source).recent
      (initRunState env)
  have hrun1 : findAndProcessRecentFolders cfg env = (st1, false) := by
    simp [findAndProcessRecentFolders, hscan, h1]
  have h2 := runLoopA_synced cfg { env with dest0 := st1.dest } hdl hsl
    (scanFold cfg env.source).recent (initRunState { env with dest0 := st1.dest })
    (fun fo hfo f hf => hcov fo hfo f hf)
  have hrun2 : findAndProcessRecentFolders cfg { env with dest0 := st1.dest } =
      ({ dest := st1.dest, migrated := (scanFold cfg env.source).recent.length,
         processed := (scanFold cfg env.source).recent,
         folderTasks := List.replicate (scanFold cfg env.source).recent.length 0,
         uploads := [], skips := [] }, false) := by
    simp only [initRunState, hscan] at h2
    simp [findAndProcessRecentFolders, hscan, initRunState, h2]
  rw [hrun1]
  exact ⟨rfl, hrun2⟩

/-- Configuration for the C8 witness. -/
def cfgC8 : Config := ⟨"r/", "m", 0⟩

/-- All-success environment for the C8 witness: one recent folder with two
objects, empty initial destination. -/
def envC8 : Env :=
  { source := [⟨"r/f1/m", 1, none⟩, ⟨"r/f1/a.txt", 1, none⟩]
    dest0 := []
    scanFails := false
    destListFails := fun _ => false
    srcListFails := fun _ => false
    attempts := fun _ _ => DlAttempt.returns (some [7])
    uploadOk := fun _ => true }

theorem rerun_after_success_yields_no_tasks_witness :
    (findAndProcessRecentFolders cfgC8 envC8).2 = false ∧
    findAndProcessRecentFolders cfgC8
        { envC8 with dest0 := (findAndProcessRecentFolders cfgC8 envC8).1.dest } =
      ({ dest := (findAndProcessRecentFolders cfgC8 envC8).1.dest,
         migrated := (scanFold cfgC8 envC8.source).recent.length,
         processed := (scanFold cfgC8 envC8.source).recent,
         folderTasks := List.replicate (scanFold cfgC8 envC8.source).recent.length 0,
         uploads := [], skips := [] }, false) :=
  rerun_after_success_yields_no_tasks cfgC8 envC8 rfl (fun _ => rfl) (fun _ => rfl)
    (fun _ => rfl) (fun _ => rfl)
